import Mathlib

/-!
Verification development for the trading decision engine: a weighted
multi-indicator signal scorer (`src/indicators.py`), a tabular Q-learning
agent (`src/rl_model.py`, `q_learning_model.py`), a circuit-breaker safety
state machine (`src/circuit_breaker_state.py`), and the decision logic of
the bots (`rl_trading_bot.py`, `src/trading_bot.py`).

Conventions of the shallow embedding:
* Python floats are modelled as rationals (`ℚ`); machine integers as `ℤ`/`ℕ`.
* Timestamps (`datetime.now()`) are an explicit `now : ℕ` argument (seconds).
* Dict-valued opaque payloads (trigger details, market snapshots) are
  modelled as `Option String`, `none` standing for the empty dict.
* Randomness (epsilon-greedy draws, replay sampling) is passed in as an
  explicit oracle argument.
* File persistence is modelled as a map from paths to stored model blobs.
-/

namespace BrownbagAI

/-! ## Circuit breaker state machine (`src/circuit_breaker_state.py`) -/

/-- Enumeration `CircuitBreakerStatus` from `circuit_breaker_state.py`. -/
inductive CircuitBreakerStatus where
  | SAFE
  | WARNING
  | TRIGGERED
  | RECOVERING
deriving DecidableEq, Repr

/-- In-memory state dict `_state` of `CircuitBreakerState` (the
`use_redis = False` branch).  Timestamps are seconds as `ℕ`, `none`
meaning the field is `None`; the opaque dict payloads are `Option String`
with `none` for the empty dict. -/
structure CBMemState where
  status : CircuitBreakerStatus
  triggered_at : Option ℕ
  trigger_reason : Option String
  trigger_details : Option String
  recovery_started_at : Option ℕ
  last_check_at : Option ℕ
  market_snapshot : Option String
  downtime_seconds : ℕ
  capital_saved : ℚ
  total_triggers : ℕ
  false_triggers : ℕ
deriving DecidableEq, Repr

/-- Initial `_state` dict set up in `CircuitBreakerState.__init__`. -/
def initialCBState : CBMemState :=
  { status := .SAFE
    triggered_at := none
    trigger_reason := none
    trigger_details := none
    recovery_started_at := none
    last_check_at := none
    market_snapshot := none
    downtime_seconds := 0
    capital_saved := 0
    total_triggers := 0
    false_triggers := 0 }

/-- Critical-section body of `CircuitBreakerState.trigger` (in-memory
branch): the nested `self.get_status()` call is inlined as the read of
`_state["status"]`.  Returns the method result together with the updated
state.  The lock discipline of the source (which re-acquires the
instance lock inside the critical section) is modelled separately by
`trigger_run` below. -/
def CBMemState.trigger (s : CBMemState) (now : ℕ) (reason : String)
    (details : String) (snapshot : Option String) : Bool × CBMemState :=
  if s.status = .TRIGGERED then
    (false, s)
  else
    (true,
      { s with
        status := .TRIGGERED
        triggered_at := some now
        trigger_reason := some reason
        trigger_details := some details
        market_snapshot := snapshot
        total_triggers := s.total_triggers + 1 })

/-- Critical-section body of `CircuitBreakerState.clear` (in-memory
branch): computes the downtime from the recorded trigger timestamp,
accumulates `capital_saved`, overwrites `downtime_seconds`, resets the
trigger fields and returns to `SAFE`. -/
def CBMemState.clear (s : CBMemState) (now : ℕ) (capital_saved : ℚ) : CBMemState :=
  let downtime : ℕ :=
    match s.triggered_at with
    | some t => now - t
    | none => 0
  { s with
    status := .SAFE
    downtime_seconds := downtime
    capital_saved := s.capital_saved + capital_saved
    triggered_at := none
    trigger_reason := none
    trigger_details := none
    recovery_started_at := none }

/-- Critical-section body of `CircuitBreakerState.start_recovery`
(in-memory branch), with the nested `get_status()` read inlined. -/
def CBMemState.start_recovery (s : CBMemState) (now : ℕ) : CBMemState :=
  if s.status ≠ .TRIGGERED then s
  else { s with status := .RECOVERING, recovery_started_at := some now }

/-- Lock-aware view of a `CircuitBreakerState` instance: the state dict
together with whether the per-instance `threading.Lock` is held. -/
structure CBInstance where
  lockHeld : Bool
  st : CBMemState
deriving DecidableEq, Repr

/-- Acquiring a Python `threading.Lock`: the lock is not reentrant, so an
acquire on a held lock blocks the calling thread forever; `none` models a
call that never completes. -/
def lockAcquire (c : CBInstance) : Option CBInstance :=
  if c.lockHeld then none else some { c with lockHeld := true }

/-- Releasing the instance lock (leaving a `with self.lock` block). -/
def lockRelease (c : CBInstance) : CBInstance :=
  { c with lockHeld := false }

/-- Execution of `CircuitBreakerState.get_status` (in-memory branch):
`with self.lock:` then read `_state["status"]`. -/
def get_status_run (c : CBInstance) : Option (CircuitBreakerStatus × CBInstance) :=
  match lockAcquire c with
  | none => none
  | some c1 => some (c1.st.status, lockRelease c1)

/-- Execution of `CircuitBreakerState.trigger` with the lock modelled
explicitly: the method enters `with self.lock:` and then calls
`self.get_status()`, which attempts to acquire the same non-reentrant
lock again. -/
def trigger_run (c : CBInstance) (now : ℕ) (reason : String)
    (details : String) (snapshot : Option String) : Option (Bool × CBInstance) :=
  match lockAcquire c with
  | none => none
  | some c1 =>
    match get_status_run c1 with
    | none => none
    | some (current_status, c2) =>
      if current_status = .TRIGGERED then
        some (false, lockRelease c2)
      else
        some (true, lockRelease
          { c2 with st := (c2.st.trigger now reason details snapshot).2 })

/-! ## Signal generation (`src/indicators.py`, `SignalGenerator`) -/

/-- Indicator snapshot consumed by `SignalGenerator.generate_signal`
(the keys the method reads from the `indicators` dict). -/
structure IndicatorSnapshot where
  price : ℚ
  rsi : ℚ
  macd : ℚ
  macd_signal : ℚ
  macd_histogram : ℚ
  vwap : ℚ
  ema9 : ℚ
  ema21 : ℚ
  sma50 : ℚ
  bb_upper : ℚ
  bb_lower : ℚ
deriving DecidableEq, Repr

/-- Accumulation phase of `SignalGenerator.generate_signal`: the running
`signal_strength` after the seven weighted indicator checks, in source
order (MACD, VWAP, EMA9/EMA21, EMA9/SMA50, EMA21/SMA50, RSI, Bollinger). -/
def signal_strength_calc (ind : IndicatorSnapshot) : ℤ :=
  let s0 : ℤ := 0
  let s1 := s0 + (if ind.macd > ind.macd_signal ∧ ind.macd_histogram > 0 then 1
            else if ind.macd < ind.macd_signal ∧ ind.macd_histogram < 0 then -1
            else 0)
  let s2 := s1 + (if ind.price > ind.vwap then 1 else -1)
  let s3 := s2 + (if ind.ema9 > ind.ema21 then 1 else -1)
  let s4 := s3 + (if ind.ema9 > ind.sma50 then 2 else -2)
  let s5 := s4 + (if ind.ema21 > ind.sma50 then 3 else -3)
  let s6 := s5 + (if ind.rsi < 30 then 1
            else if ind.rsi > 70 then -1
            else 0)
  s6 + (if ind.price < ind.bb_lower then 1
  else if ind.price > ind.bb_upper then -1
  else 0)

/-- Classification phase of `SignalGenerator.generate_signal`
(`self.min_threshold` passed explicitly). -/
def generate_signal (ind : IndicatorSnapshot) (min_threshold : ℤ) : String × ℤ :=
  let signal_strength := signal_strength_calc ind
  if signal_strength ≥ min_threshold then ("BUY", signal_strength)
  else if signal_strength ≤ -min_threshold then ("SELL", signal_strength)
  else ("HOLD", signal_strength)

/-- Weight contributed by the MACD alignment check (±1). -/
def macdCheck (ind : IndicatorSnapshot) : ℤ :=
  if ind.macd > ind.macd_signal ∧ ind.macd_histogram > 0 then 1
  else if ind.macd < ind.macd_signal ∧ ind.macd_histogram < 0 then -1
  else 0

/-- Weight contributed by the price-vs-VWAP check (±1). -/
def vwapCheck (ind : IndicatorSnapshot) : ℤ :=
  if ind.price > ind.vwap then 1 else -1

/-- Weight contributed by the EMA9-vs-EMA21 check (±1). -/
def emaShortCheck (ind : IndicatorSnapshot) : ℤ :=
  if ind.ema9 > ind.ema21 then 1 else -1

/-- Weight contributed by the EMA9-vs-SMA50 check (±2). -/
def emaMediumCheck (ind : IndicatorSnapshot) : ℤ :=
  if ind.ema9 > ind.sma50 then 2 else -2

/-- Weight contributed by the EMA21-vs-SMA50 check (±3). -/
def emaLongCheck (ind : IndicatorSnapshot) : ℤ :=
  if ind.ema21 > ind.sma50 then 3 else -3

/-- Weight contributed by the RSI oversold/overbought check (±1). -/
def rsiCheck (ind : IndicatorSnapshot) : ℤ :=
  if ind.rsi < 30 then 1 else if ind.rsi > 70 then -1 else 0

/-- Weight contributed by the Bollinger-band check (±1). -/
def bbCheck (ind : IndicatorSnapshot) : ℤ :=
  if ind.price < ind.bb_lower then 1
  else if ind.price > ind.bb_upper then -1
  else 0

/-- Signed sum of the seven weighted indicator checks, as the claim
describes the score. -/
def signalScore (ind : IndicatorSnapshot) : ℤ :=
  macdCheck ind + vwapCheck ind + emaShortCheck ind + emaMediumCheck ind +
    emaLongCheck ind + rsiCheck ind + bbCheck ind

/-! ## State discretization (`src/rl_model.py`, `QLearningAgent`) -/

/-- Embedding of `QLearningAgent._discretize`: index of the first
threshold the value is strictly less than, `bins.length` if none. -/
def discretize (value : ℚ) : List ℚ → ℕ
  | [] => 0
  | b :: rest => if value < b then 0 else discretize value rest + 1

/-- Fields of the state dict read by `QLearningAgent.get_state_key`
(with the dict-lookup defaults already applied). -/
structure StateInput where
  signal_strength : ℚ
  rsi : ℚ
  macd_histogram : ℚ
  fear_greed_index : ℚ
  position_pnl : ℚ
  btc_trend : String
  market_regime : String
deriving DecidableEq, Repr

/-- Embedding of `QLearningAgent.get_state_key`: the discrete state-key
string built from the five bucketed values and the two labels. -/
def get_state_key (st : StateInput) : String :=
  "sig:" ++ toString (discretize st.signal_strength [-10, -3, -1, 1, 3, 10]) ++
  "|rsi:" ++ toString (discretize st.rsi [30, 40, 50, 60, 70]) ++
  "|macd:" ++ toString (discretize st.macd_histogram [-1/10, -1/100, 0, 1/100, 1/10]) ++
  "|fg:" ++ toString (discretize st.fear_greed_index [25, 45, 55, 75]) ++
  "|pnl:" ++ toString (discretize st.position_pnl [-5/100, -2/100, 0, 2/100, 5/100]) ++
  "|btc:" ++ st.btc_trend ++
  "|regime:" ++ st.market_regime

/-! ## Q-table primitives

The Python Q-tables are dicts from state-key strings to per-action value
arrays; they are embedded as association lists in insertion order. -/

/-- Per-state action values: the 3-element numpy array (`rl_model.py`) or
the `{0: q0, 1: q1, 2: q2}` dict (`q_learning_model.py`). -/
structure QVals where
  v0 : ℚ
  v1 : ℚ
  v2 : ℚ
deriving DecidableEq, Repr

/-- Indexing `q_values[action]` (indices beyond 2 do not occur: callers
pass actions in 0..2). -/
def QVals.get (v : QVals) (action : ℕ) : ℚ :=
  if action = 0 then v.v0 else if action = 1 then v.v1 else v.v2

/-- Assignment `q_values[action] = x`. -/
def QVals.set (v : QVals) (action : ℕ) (x : ℚ) : QVals :=
  if action = 0 then { v with v0 := x }
  else if action = 1 then { v with v1 := x }
  else { v with v2 := x }

/-- The numpy `np.max` over the three action values. -/
def QVals.max3 (v : QVals) : ℚ := max v.v0 (max v.v1 v.v2)

/-- The numpy `np.min` over the three action values. -/
def QVals.min3 (v : QVals) : ℚ := min v.v0 (min v.v1 v.v2)

/-- The numpy `np.argmax` over the three action values: the lowest index
attaining the maximum. -/
def QVals.argmax3 (v : QVals) : ℕ :=
  if v.v0 ≥ v.v1 ∧ v.v0 ≥ v.v2 then 0
  else if v.v1 ≥ v.v2 then 1
  else 2

/-- The all-zero entry a fresh state is initialized with. -/
def QVals.zero : QVals := ⟨0, 0, 0⟩

/-- Q-table: dict from state-key string to action values. -/
def QTable := List (String × QVals)

instance : DecidableEq QTable := by
  unfold QTable
  infer_instance

/-- Dict membership test (`state_key in self.q_table`). -/
def qfind : QTable → String → Option QVals
  | [], _ => none
  | (k, v) :: rest, key => if key = k then some v else qfind rest key

/-- Dict read with the zero default used after lazy initialization. -/
def qget (t : QTable) (key : String) : QVals :=
  (qfind t key).getD QVals.zero

/-- Dict assignment `q_table[key] = v` (replace if present, else append,
matching dict insertion-order semantics). -/
def qset : QTable → String → QVals → QTable
  | [], key, nv => [(key, nv)]
  | (k, v) :: rest, key, nv =>
    if key = k then (k, nv) :: rest else (k, v) :: qset rest key nv

/-- Lazy initialization step of `QLearningAgent.get_q_values`: insert a
zero entry when the key is missing. -/
def ensureKey (t : QTable) (key : String) : QTable :=
  match qfind t key with
  | some _ => t
  | none => qset t key QVals.zero

/-! ## Q-learning agent (`src/rl_model.py`, `QLearningAgent`) -/

/-- Experience tuple stored by `QLearningAgent.store_experience`. -/
structure Experience where
  state : StateInput
  action : ℕ
  reward : ℚ
  next_state : StateInput
  done : Bool
deriving DecidableEq, Repr

/-- Mutable fields of `QLearningAgent`. -/
structure QLearningAgent where
  learning_rate : ℚ
  discount_factor : ℚ
  epsilon : ℚ
  epsilon_decay : ℚ
  epsilon_min : ℚ
  buffer_size : ℕ
  q_table : QTable
  experience_buffer : List Experience
  total_episodes : ℕ
  total_states_learned : ℕ
deriving DecidableEq

/-- Fresh agent built by `QLearningAgent.__init__` (constructor defaults
for epsilon parameters and buffer size). -/
def initAgent (learning_rate discount_factor : ℚ) : QLearningAgent :=
  { learning_rate := learning_rate
    discount_factor := discount_factor
    epsilon := 1/10
    epsilon_decay := 995/1000
    epsilon_min := 1/100
    buffer_size := 10000
    q_table := []
    experience_buffer := []
    total_episodes := 0
    total_states_learned := 0 }

/-- Embedding of `QLearningAgent.get_q_values`: returns the (lazily
initialized) entry together with the updated table and states-learned
counter. -/
def QLearningAgent.get_q_values (a : QLearningAgent) (key : String) :
    QLearningAgent × QVals :=
  match qfind a.q_table key with
  | some v => (a, v)
  | none =>
    ({ a with
        q_table := qset a.q_table key QVals.zero
        total_states_learned := a.total_states_learned + 1 },
      QVals.zero)

/-- Embedding of `QLearningAgent.get_action_confidence` given the
state's action values (the entry `get_q_values` returns for the state
key): numpy argmax plus the spread-based confidence. -/
def get_action_confidence (v : QVals) : ℕ × ℚ :=
  let action := v.argmax3
  let max_q := v.get action
  let min_q := v.min3
  if max_q = min_q then (action, 0)
  else (action, min 1 ((max_q - min_q) / 10))

/-- Agent-level `QLearningAgent.get_action_confidence` (state dict
mapped through `get_state_key`, with lazy Q-table initialization). -/
def QLearningAgent.get_action_confidence_at (a : QLearningAgent)
    (state : StateInput) : QLearningAgent × ℕ × ℚ :=
  let key := get_state_key state
  let p := a.get_q_values key
  (p.1, get_action_confidence p.2)

/-- Embedding of `QLearningAgent.update_q_value`: the Q-learning update
`Q(s,a) += lr * (reward + gamma * max Q(s2) - Q(s,a))`, with the
bootstrap term read through `get_q_values` only when `done` is false,
exactly as in the source. -/
def QLearningAgent.update_q_value (a : QLearningAgent) (state : StateInput)
    (action : ℕ) (reward : ℚ) (next_state : StateInput) (done : Bool) :
    QLearningAgent :=
  let state_key := get_state_key state
  let next_state_key := get_state_key next_state
  let p1 := a.get_q_values state_key
  let current_q := p1.2.get action
  let p2 :=
    if done then (p1.1, (0 : ℚ))
    else
      let pn := p1.1.get_q_values next_state_key
      (pn.1, pn.2.max3)
  let target := reward + a.discount_factor * p2.2
  let new_q := current_q + a.learning_rate * (target - current_q)
  { p2.1 with
    q_table := qset p2.1.q_table state_key ((qget p2.1.q_table state_key).set action new_q) }

/-- Embedding of `QLearningAgent.store_experience` (deque append with
`maxlen = buffer_size`: the oldest entry is dropped on overflow). -/
def QLearningAgent.store_experience (a : QLearningAgent) (e : Experience) :
    QLearningAgent :=
  let buf := a.experience_buffer ++ [e]
  { a with
    experience_buffer := if buf.length > a.buffer_size then buf.drop 1 else buf }

/-- Embedding of `QLearningAgent.replay_experiences`: if the buffer holds
fewer than `batch_size` experiences nothing happens; otherwise the
sampled batch (the `random.sample` draw, supplied as an explicit oracle)
is replayed through `update_q_value`.  No epsilon decay happens here. -/
def QLearningAgent.replay_experiences (a : QLearningAgent) (batch_size : ℕ)
    (sample : List Experience) : QLearningAgent :=
  if a.experience_buffer.length < batch_size then a
  else
    sample.foldl
      (fun ag e => ag.update_q_value e.state e.action e.reward e.next_state e.done) a

/-- Embedding of `QLearningAgent.decay_epsilon`. -/
def QLearningAgent.decay_epsilon (a : QLearningAgent) : QLearningAgent :=
  { a with epsilon := max a.epsilon_min (a.epsilon * a.epsilon_decay) }

/-! ## Model persistence (`QLearningAgent.save_model` / `load_model`)

The pickled blob is modelled as an explicit record and the file system as
a map from paths to stored blobs; pickling round-trips values exactly. -/

/-- The `model_data` dict pickled by `QLearningAgent.save_model`. -/
structure ModelData where
  q_table : QTable
  epsilon : ℚ
  total_episodes : ℕ
  total_states_learned : ℕ
  learning_rate : ℚ
  discount_factor : ℚ
  timestamp : ℕ
deriving DecidableEq

/-- File system: map from file path to the stored model blob. -/
def FileStore := String → Option ModelData

/-- Embedding of `QLearningAgent.save_model`: writes the model blob at
the given path. -/
def QLearningAgent.save_model (a : QLearningAgent) (filepath : String)
    (now : ℕ) (fs : FileStore) : FileStore :=
  fun p =>
    if p = filepath then
      some
        { q_table := a.q_table
          epsilon := a.epsilon
          total_episodes := a.total_episodes
          total_states_learned := a.total_states_learned
          learning_rate := a.learning_rate
          discount_factor := a.discount_factor
          timestamp := now }
    else fs p

/-- Embedding of `QLearningAgent.load_model`: a missing file leaves the
agent unchanged and returns `false`; a stored blob restores the Q-table,
epsilon and the two counters (not the learning parameters) and returns
`true`. -/
def QLearningAgent.load_model (a : QLearningAgent) (filepath : String)
    (fs : FileStore) : QLearningAgent × Bool :=
  match fs filepath with
  | none => (a, false)
  | some md =>
    ({ a with
        q_table := md.q_table
        epsilon := md.epsilon
        total_episodes := md.total_episodes
        total_states_learned := md.total_states_learned },
      true)

/-! ## Q-learning trader (`q_learning_model.py`, `QLearningTrader`) -/

/-- State dict consumed by `QLearningTrader.discretize_state` (the keys
the method reads, with dict-lookup defaults applied). -/
structure TStateData where
  signal : String
  signal_strength : ℤ
  rsi : ℚ
  macd_histogram : ℚ
  price : ℚ
  vwap : ℚ
  market_regime : String
  fear_greed_index : ℚ
  btc_correlation : ℚ
  has_position : Bool
  position_pnl : ℚ
deriving DecidableEq, Repr

/-- Embedding of `QLearningTrader.discretize_state`. -/
def discretize_state (sd : TStateData) : String :=
  let rsi_state := if sd.rsi < 30 then "low" else if sd.rsi > 70 then "high" else "mid"
  let macd_state := if sd.macd_histogram > 0 then "bullish" else "bearish"
  let vwap_state := if sd.price > sd.vwap then "above" else "below"
  let fg_state :=
    if sd.fear_greed_index < 40 then "fear"
    else if sd.fear_greed_index > 60 then "greed"
    else "neutral"
  let btc_corr_state := if |sd.btc_correlation| > 7/10 then "high" else "low"
  let position_state :=
    if sd.has_position then (if sd.position_pnl > 0 then "profit" else "loss")
    else "none"
  sd.signal ++ "_" ++ toString sd.signal_strength ++ "_" ++ rsi_state ++ "_" ++
    macd_state ++ "_" ++ vwap_state ++ "_" ++ sd.market_regime ++ "_" ++
    fg_state ++ "_" ++ btc_corr_state ++ "_" ++ position_state

/-- Action names `self.actions = ['HOLD', 'BUY', 'SELL']` indexed by the
action number. -/
def traderActionName (action : ℕ) : String :=
  if action = 0 then "HOLD" else if action = 1 then "BUY" else "SELL"

/-- Experience tuple of `QLearningTrader.add_experience` (state keys are
already discretized when stored). -/
structure TExperience where
  state : String
  action : ℕ
  reward : ℚ
  next_state : String
deriving DecidableEq, Repr

/-- Mutable fields of `QLearningTrader`. -/
structure QLearningTrader where
  learning_rate : ℚ
  discount_factor : ℚ
  epsilon : ℚ
  epsilon_min : ℚ
  epsilon_decay : ℚ
  q_table : QTable
  experience_buffer : List TExperience
  total_episodes : ℕ
  total_rewards : ℚ
  win_streak : ℕ
  loss_streak : ℕ
deriving DecidableEq

/-- Embedding of `QLearningTrader.update_q_value` (both keys lazily
initialized, then the standard Q-learning update). -/
def QLearningTrader.update_q_value (t : QLearningTrader) (state : String)
    (action : ℕ) (reward : ℚ) (next_state : String) : QLearningTrader :=
  let t0 := ensureKey t.q_table state
  let t1 := ensureKey t0 next_state
  let current_q := (qget t1 state).get action
  let max_next_q := (qget t1 next_state).max3
  let new_q := current_q + t.learning_rate *
    (reward + t.discount_factor * max_next_q - current_q)
  { t with q_table := qset t1 state ((qget t1 state).set action new_q) }

/-- Greedy branch of `QLearningTrader.choose_action` on the state's
action-value dict: `max(q_values, key=q_values.get)` keeps the first key
attaining the maximum (the lowest action index), and the confidence is
the raw max-min spread, or `0.5` when all values are equal. -/
def chooseActionGreedy (v : QVals) : ℕ × ℚ :=
  let action := v.argmax3
  let max_q := v.max3
  let min_q := v.min3
  (action, if max_q ≠ min_q then max_q - min_q else 1/2)

/-- Embedding of `QLearningTrader.choose_action`.  The two random draws
(`np.random.random() < self.epsilon` and `np.random.randint(0, 3)`) are
supplied as explicit oracle arguments. -/
def QLearningTrader.choose_action (t : QLearningTrader) (sd : TStateData)
    (explore : Bool) (drawBelowEpsilon : Bool) (randAction : ℕ) :
    QLearningTrader × ℕ × String × ℚ :=
  let state := discretize_state sd
  if explore ∧ drawBelowEpsilon then
    (t, randAction, traderActionName randAction, 0)
  else
    let t1 := { t with q_table := ensureKey t.q_table state }
    let q_values := qget t1.q_table state
    let (action, confidence) := chooseActionGreedy q_values
    (t1, action, traderActionName action, confidence)

/-- Embedding of `QLearningTrader.replay_experience`: no-op below
`batch_size`, otherwise the sampled batch (the `np.random.choice` draw,
supplied as an oracle) is replayed through `update_q_value` and epsilon
is multiplied by `epsilon_decay` when it still exceeds `epsilon_min`. -/
def QLearningTrader.replay_experience (t : QLearningTrader) (batch_size : ℕ)
    (sample : List TExperience) : QLearningTrader :=
  if t.experience_buffer.length < batch_size then t
  else
    let t1 := sample.foldl
      (fun tr e => tr.update_q_value e.state e.action e.reward e.next_state) t
    if t1.epsilon > t1.epsilon_min then
      { t1 with epsilon := t1.epsilon * t1.epsilon_decay }
    else t1

/-! ## Decision logic of the RL trading bot (`rl_trading_bot.py`) -/

/-- An open position as returned by `get_current_position`: side
(`"LONG"`/`"SHORT"`) and entry price. -/
structure BotPosition where
  side : String
  entry_price : ℚ
deriving DecidableEq, Repr

/-- Embedding of `RLTradingBot.make_trading_decision`.  Inputs are the
technical signal, indicator values, market context, the current position
and the RL model; the two epsilon-greedy random draws are oracle
arguments.  Returns the updated RL model, the final decision and the
reasoning trail.  The function reads no circuit-breaker state: the
source method has no reference to `CircuitBreakerState`. -/
def make_trading_decision (trader : QLearningTrader) (signal : String)
    (signal_strength : ℤ) (current_price rsi macd_histogram vwap : ℚ)
    (market_regime : String) (fear_greed_index : ℚ)
    (position : Option BotPosition) (min_signal_threshold : ℤ)
    (drawBelowEpsilon : Bool) (randAction : ℕ) :
    QLearningTrader × String × List String :=
  let has_position := position.isSome
  let position_pnl : ℚ :=
    match position with
    | none => 0
    | some p =>
      if p.side = "LONG" then (current_price - p.entry_price) / p.entry_price
      else (p.entry_price - current_price) / p.entry_price
  let state_data : TStateData :=
    { signal := signal
      signal_strength := signal_strength
      rsi := rsi
      macd_histogram := macd_histogram
      price := current_price
      vwap := vwap
      market_regime := market_regime
      fear_greed_index := fear_greed_index
      btc_correlation := 1/2
      has_position := has_position
      position_pnl := position_pnl }
  let (trader1, res) := trader.choose_action state_data true drawBelowEpsilon randAction
  let rl_action := res.2.1
  let confidence := res.2.2
  let reasoning : List String :=
    ["Original signal: " ++ signal ++ " (strength: " ++ toString signal_strength ++ ")",
     "RL recommendation: " ++ rl_action]
  if confidence < 3/10 then
    (trader1, "HOLD", reasoning ++ ["Insufficient confidence - choosing HOLD for safety"])
  else if has_position then
    if position_pnl > 0 then
      if signal = "HOLD" ∨ rl_action = "HOLD" then
        (trader1, "HOLD", reasoning ++ ["Keeping profitable position open"])
      else
        (trader1, rl_action, reasoning ++ ["RL suggests action on profitable position"])
    else
      if signal = "HOLD" ∨ rl_action = "HOLD" then
        (trader1,
          if (position.map BotPosition.side).getD "" = "LONG" then "SELL" else "BUY",
          reasoning ++ ["Cutting losses on negative PnL position"])
      else
        (trader1, rl_action, reasoning ++ ["RL suggests action on losing position"])
  else
    if signal_strength ≥ min_signal_threshold ∧ confidence > 1/2 then
      (trader1, rl_action, reasoning ++ ["High confidence trade"])
    else
      (trader1, "HOLD", reasoning ++ ["Waiting for stronger signal"])

/-! ## Theorems -/

/-- C3: Circuit-breaker trigger idempotency.  A `trigger` call while the
status is already TRIGGERED returns `False` and leaves the whole state
unchanged; from every other starting status it returns `True`, sets
status to TRIGGERED, records reason, details, snapshot and timestamp and
increments `total_triggers` by exactly one, so a second immediate
`trigger` is a no-op and the two calls together increment
`total_triggers` exactly once. -/
theorem cb_trigger_idempotent (s : CBMemState) (now now2 : ℕ)
    (r d r2 d2 : String) (snap snap2 : Option String) :
    (s.status = .TRIGGERED → s.trigger now r d snap = (false, s))
    ∧ (s.status ≠ .TRIGGERED →
        (s.trigger now r d snap).1 = true
        ∧ (s.trigger now r d snap).2.status = .TRIGGERED
        ∧ (s.trigger now r d snap).2.triggered_at = some now
        ∧ (s.trigger now r d snap).2.trigger_reason = some r
        ∧ (s.trigger now r d snap).2.trigger_details = some d
        ∧ (s.trigger now r d snap).2.market_snapshot = snap
        ∧ (s.trigger now r d snap).2.total_triggers = s.total_triggers + 1
        ∧ (s.trigger now r d snap).2.trigger now2 r2 d2 snap2 =
            (false, (s.trigger now r d snap).2)
        ∧ ((s.trigger now r d snap).2.trigger now2 r2 d2 snap2).2.total_triggers =
            s.total_triggers + 1) := by
  by_cases h : s.status = .TRIGGERED <;>
    simp [CBMemState.trigger, h]

theorem cb_trigger_idempotent_witness :
    initialCBState.status ≠ .TRIGGERED ∧
    ((initialCBState.trigger 5 "BTC dropped 17.3% in 52 minutes" "details" none).2.trigger
        6 "again" "details2" none).2.total_triggers = 1 := by
  refine ⟨by decide, ?_⟩
  have h := (cb_trigger_idempotent initialCBState 5 6
      "BTC dropped 17.3% in 52 minutes" "details" "again" "details2" none none).2
    (by decide)
  simpa [initialCBState] using h.2.2.2.2.2.2.2.2

/-- C5 counterexample: the claim says total downtime is accumulated
across trigger/clear cycles, but `clear` overwrites `downtime_seconds`.
Two cycles with downtimes 10 s and 5 s leave `downtime_seconds = 5`, not
the accumulated 15. -/
theorem cb_clear_downtime_overwritten :
    (((((initialCBState.trigger 0 "r1" "d1" none).2).clear 10 0).trigger
        20 "r2" "d2" none).2.clear 25 0).downtime_seconds = 5
    ∧ (5 : ℕ) ≠ 10 + 5 := by
  exact ⟨rfl, by decide⟩

/-- C5 (amended): `clear(capital_saved)` is effective from every status;
afterwards the status is SAFE and the trigger fields (trigger timestamp,
reason, details, recovery-start timestamp) are reset; the downtime
recorded equals `now - trigger-timestamp` when a trigger timestamp was
set and 0 if never triggered; `capital_saved` is accumulated across
cycles, but `downtime_seconds` is overwritten with the downtime of the
cycle just cleared (not accumulated); `total_triggers` is unchanged. -/
theorem cb_clear_semantics (s : CBMemState) (now : ℕ) (cs : ℚ) :
    (s.clear now cs).status = .SAFE
    ∧ (s.clear now cs).triggered_at = none
    ∧ (s.clear now cs).trigger_reason = none
    ∧ (s.clear now cs).trigger_details = none
    ∧ (s.clear now cs).recovery_started_at = none
    ∧ (s.clear now cs).capital_saved = s.capital_saved + cs
    ∧ (s.triggered_at = none → (s.clear now cs).downtime_seconds = 0)
    ∧ (∀ t, s.triggered_at = some t → (s.clear now cs).downtime_seconds = now - t)
    ∧ (s.clear now cs).total_triggers = s.total_triggers := by
  rcases h : s.triggered_at with _ | t <;>
    simp [CBMemState.clear, h]

theorem cb_clear_semantics_witness :
    ((initialCBState.trigger 3 "r" "d" none).2.clear 10 1).downtime_seconds = 7
    ∧ ((initialCBState.clear 4 0).downtime_seconds = 0) := by
  constructor
  · have h := (cb_clear_semantics (initialCBState.trigger 3 "r" "d" none).2 10 1).2.2.2.2.2.2.2.1
      3 (by decide)
    simpa using h
  · have h := (cb_clear_semantics initialCBState 4 0).2.2.2.2.2.2.1 (by decide)
    simpa using h

/-- C10: the claim says every mutating transition invoked on an instance
whose lock is free runs to completion.  In the source, `trigger` enters
`with self.lock:` and then calls `self.get_status()`, which tries to
acquire the same non-reentrant `threading.Lock` again, so the call blocks
forever (`none`): `trigger` never completes even from a free lock, while
a standalone `get_status` on the same instance does complete. -/
theorem cb_trigger_self_deadlock (c : CBInstance) (now : ℕ) (r d : String)
    (snap : Option String) (h : c.lockHeld = false) :
    trigger_run c now r d snap = none ∧ (get_status_run c).isSome = true := by
  simp [trigger_run, get_status_run, lockAcquire, h]

theorem cb_trigger_self_deadlock_witness :
    trigger_run ⟨false, initialCBState⟩ 0 "BTC dropped 17.3% in 52 minutes"
      "details" none = none :=
  (cb_trigger_self_deadlock ⟨false, initialCBState⟩ 0
    "BTC dropped 17.3% in 52 minutes" "details" none rfl).1

/-- C9: Round-trip persistence.  For every agent state and every path,
`save_model` followed by `load_model` on that path restores exactly the
saved Q-table (same state keys, same action values), the same epsilon and
the same episode and states-learned counters, and `load_model` returns
success on every file `save_model` produced. -/
theorem model_save_load_roundtrip (a b : QLearningAgent) (filepath : String)
    (now : ℕ) (fs : FileStore) :
    (b.load_model filepath (a.save_model filepath now fs)).2 = true
    ∧ (b.load_model filepath (a.save_model filepath now fs)).1.q_table = a.q_table
    ∧ (b.load_model filepath (a.save_model filepath now fs)).1.epsilon = a.epsilon
    ∧ (b.load_model filepath (a.save_model filepath now fs)).1.total_episodes =
        a.total_episodes
    ∧ (b.load_model filepath (a.save_model filepath now fs)).1.total_states_learned =
        a.total_states_learned := by
  simp [QLearningAgent.load_model, QLearningAgent.save_model]

lemma discretize_eq_findIdx (value : ℚ) :
    ∀ bins : List ℚ, discretize value bins = bins.findIdx (fun b => decide (value < b)) := by
  intro bins
  induction bins with
  | nil => rfl
  | cons b rest ih =>
    by_cases h : value < b <;>
      simp [discretize, List.findIdx_cons, h, ih]

lemma discretize_le_length (value : ℚ) :
    ∀ bins : List ℚ, discretize value bins ≤ bins.length := by
  intro bins
  induction bins with
  | nil => exact Nat.le_refl 0
  | cons b rest ih =>
    by_cases h : value < b <;> simp [discretize, h]
    omega

lemma discretize_eq_length_of_forall_le (value : ℚ) :
    ∀ bins : List ℚ, (∀ b ∈ bins, b ≤ value) → discretize value bins = bins.length := by
  intro bins
  induction bins with
  | nil => intro; rfl
  | cons b rest ih =>
    intro h
    have hb : ¬ value < b := not_lt.2 (h b (List.mem_cons_self b rest))
    simp [discretize, hb]
    exact ih fun x hx => h x (List.mem_cons_of_mem b hx)

lemma chain'_last_le (value : ℚ) :
    ∀ bins : List ℚ, bins.Chain' (· ≤ ·) →
      ∀ lb ∈ bins.getLast?, lb ≤ value → ∀ b ∈ bins, b ≤ value := by
  intro bins
  induction bins with
  | nil => simp
  | cons a rest ih =>
    intro hchain lb hlb hle b hb
    cases rest with
    | nil =>
      simp at hlb hb
      rw [hb, hlb]
      exact hle
    | cons a2 rest2 =>
      rw [List.chain'_cons] at hchain
      have hlast : lb ∈ (a2 :: rest2).getLast? := by
        simpa [List.getLast?_cons_cons] using hlb
      have hrest := ih hchain.2 lb hlast hle
      rcases List.mem_cons.1 hb with hba | hbr
      · have ha2 : a2 ≤ value := hrest a2 (List.mem_cons_self a2 rest2)
        exact hba ▸ le_trans hchain.1 ha2
      · exact hrest b hbr

/-- C4: Discretizer totality and bucket semantics.  For every rational
input and every threshold list, `discretize` returns the index of the
first threshold the value is strictly less than (the `findIdx`
semantics), always a valid index in `[0, bins.length]`; for an ordered
list whose last threshold is at most the value it returns `bins.length`;
and on each of the five concrete bin lists used by `get_state_key`
(signal strength, RSI, MACD histogram, fear-greed, position P&L) the
bucket is within the respective bound, so the state-key construction is
total. -/
theorem discretize_total_first_bucket (value : ℚ) (bins : List ℚ) :
    discretize value bins = bins.findIdx (fun b => decide (value < b))
    ∧ discretize value bins ≤ bins.length
    ∧ (bins.Chain' (· ≤ ·) →
        ∀ lb ∈ bins.getLast?, lb ≤ value → discretize value bins = bins.length)
    ∧ discretize value [-10, -3, -1, 1, 3, 10] ≤ 6
    ∧ discretize value [30, 40, 50, 60, 70] ≤ 5
    ∧ discretize value [-1/10, -1/100, 0, 1/100, 1/10] ≤ 5
    ∧ discretize value [25, 45, 55, 75] ≤ 4
    ∧ discretize value [-5/100, -2/100, 0, 2/100, 5/100] ≤ 5 := by
  refine ⟨discretize_eq_findIdx value bins, discretize_le_length value bins,
    ?_, ?_, ?_, ?_, ?_, ?_⟩
  · intro hchain lb hlb hle
    exact discretize_eq_length_of_forall_le value bins
      (chain'_last_le value bins hchain lb hlb hle)
  · exact discretize_le_length value [-10, -3, -1, 1, 3, 10]
  · exact discretize_le_length value [30, 40, 50, 60, 70]
  · exact discretize_le_length value [-1/10, -1/100, 0, 1/100, 1/10]
  · exact discretize_le_length value [25, 45, 55, 75]
  · exact discretize_le_length value [-5/100, -2/100, 0, 2/100, 5/100]

theorem discretize_total_first_bucket_witness :
    discretize 1000 [30, 40, 50, 60, 70] = 5 ∧ discretize (-1000) [30, 40, 50, 60, 70] = 0 := by
  constructor
  · have h := (discretize_total_first_bucket 1000 [30, 40, 50, 60, 70]).2.2.1
      (by norm_num [List.chain'_cons]) 70 (by decide) (by decide)
    simpa using h
  · have h := (discretize_total_first_bucket (-1000) [30, 40, 50, 60, 70]).1
    simpa using h

lemma min3_le_max3 (v : QVals) : v.min3 ≤ v.max3 :=
  le_trans (min_le_left _ _) (le_max_left _ _)

lemma argmax3_get (v : QVals) : v.get v.argmax3 = v.max3 := by
  unfold QVals.argmax3
  split_ifs with h1 h2
  · have hm : max v.v1 v.v2 ≤ v.v0 := max_le h1.1 h1.2
    simp [QVals.get, QVals.max3, max_eq_left hm]
  · push_neg at h1
    have hv01 : v.v0 < v.v1 := by
      by_contra hc
      push_neg at hc
      exact absurd (le_trans h2 hc) (not_le.2 (h1 hc))
    simp [QVals.get, QVals.max3, max_eq_left h2, max_eq_right (le_of_lt hv01)]
  · push_neg at h1 h2
    have hv02 : v.v0 < v.v2 := by
      by_cases hc : v.v1 ≤ v.v0
      · exact h1 hc
      · push_neg at hc
        exact lt_trans hc h2
    simp [QVals.get, QVals.max3, max_eq_right (le_of_lt h2),
      max_eq_right (le_of_lt hv02)]

lemma argmax3_lowest (v : QVals) : ∀ j, j < v.argmax3 → v.get j < v.max3 := by
  unfold QVals.argmax3
  split_ifs with h1 h2
  · omega
  · push_neg at h1
    have hv01 : v.v0 < v.v1 := by
      by_contra hc
      push_neg at hc
      exact absurd (le_trans h2 hc) (not_le.2 (h1 hc))
    intro j hj
    have hj0 : j = 0 := by omega
    subst hj0
    simp [QVals.get, QVals.max3, max_eq_left h2, max_eq_right (le_of_lt hv01), hv01]
  · push_neg at h1 h2
    have hv02 : v.v0 < v.v2 := by
      by_cases hc : v.v1 ≤ v.v0
      · exact h1 hc
      · push_neg at hc
        exact lt_trans hc h2
    intro j hj
    have hmax : v.max3 = v.v2 := by
      simp [QVals.max3, max_eq_right (le_of_lt h2), max_eq_right (le_of_lt hv02)]
    have hj01 : j = 0 ∨ j = 1 := by omega
    rcases hj01 with hj0 | hj1 <;> subst_vars <;> simp [QVals.get, hmax, hv02, h2]

lemma max3_eq_min3_iff (v : QVals) :
    v.max3 = v.min3 ↔ (v.v0 = v.v1 ∧ v.v1 = v.v2) := by
  constructor
  · intro h
    simp only [QVals.max3, QVals.min3] at h
    have h0l : min v.v0 (min v.v1 v.v2) ≤ v.v0 := min_le_left _ _
    have h0u : v.v0 ≤ max v.v0 (max v.v1 v.v2) := le_max_left _ _
    have h1l : min v.v0 (min v.v1 v.v2) ≤ v.v1 :=
      le_trans (min_le_right _ _) (min_le_left _ _)
    have h1u : v.v1 ≤ max v.v0 (max v.v1 v.v2) :=
      le_trans (le_max_left _ _) (le_max_right _ _)
    have h2l : min v.v0 (min v.v1 v.v2) ≤ v.v2 :=
      le_trans (min_le_right _ _) (min_le_right _ _)
    have h2u : v.v2 ≤ max v.v0 (max v.v1 v.v2) :=
      le_trans (le_max_right _ _) (le_max_right _ _)
    constructor <;> linarith
  · rintro ⟨h01, h12⟩
    rcases v with ⟨a, b, c⟩
    simp only at h01 h12
    subst h01
    subst h12
    simp [QVals.max3, QVals.min3]

lemma get_action_confidence_eq (v : QVals) :
    get_action_confidence v =
      (v.argmax3, if v.max3 = v.min3 then 0 else min 1 ((v.max3 - v.min3) / 10)) := by
  simp only [get_action_confidence]
  rw [argmax3_get]
  split_ifs <;> rfl

lemma chooseActionGreedy_eq (v : QVals) :
    chooseActionGreedy v =
      (v.argmax3, if v.max3 ≠ v.min3 then v.max3 - v.min3 else 1/2) :=
  rfl

/-- C6 (amended): the greedy action query of both models returns the
argmax over the state's three action-values with ties broken by the
lowest action index.  In `QLearningAgent.get_action_confidence` the
confidence is `min(1, (max - min)/10)` (normalized spread clamped to
`[0,1]`, in particular always within `[0,1]`) and `0` when all three
action-values are equal, as the claim states.  In
`QLearningTrader.choose_action` the confidence is instead the raw
unnormalized, unclamped spread `max - min`, and `0.5` — not `0` — when
all three action-values are equal. -/
theorem action_confidence_spec (v : QVals) :
    ((get_action_confidence v).1 = v.argmax3
      ∧ v.get (get_action_confidence v).1 = v.max3
      ∧ (∀ j, j < (get_action_confidence v).1 → v.get j < v.max3)
      ∧ 0 ≤ (get_action_confidence v).2
      ∧ (get_action_confidence v).2 ≤ 1
      ∧ (v.v0 = v.v1 ∧ v.v1 = v.v2 → (get_action_confidence v).2 = 0)
      ∧ (¬(v.v0 = v.v1 ∧ v.v1 = v.v2) →
          (get_action_confidence v).2 = min 1 ((v.max3 - v.min3) / 10)))
    ∧ ((chooseActionGreedy v).1 = v.argmax3
      ∧ v.get (chooseActionGreedy v).1 = v.max3
      ∧ (∀ j, j < (chooseActionGreedy v).1 → v.get j < v.max3)
      ∧ (v.v0 = v.v1 ∧ v.v1 = v.v2 → (chooseActionGreedy v).2 = 1/2)
      ∧ (¬(v.v0 = v.v1 ∧ v.v1 = v.v2) → (chooseActionGreedy v).2 = v.max3 - v.min3))
    ∧ (∀ (a : QLearningAgent) (st : StateInput),
        (a.get_action_confidence_at st).2 =
          get_action_confidence (a.get_q_values (get_state_key st)).2) := by
  have hspread : 0 ≤ v.max3 - v.min3 := sub_nonneg.2 (min3_le_max3 v)
  refine ⟨⟨?_, ?_, ?_, ?_, ?_, ?_, ?_⟩, ⟨?_, ?_, ?_, ?_, ?_⟩, ?_⟩
  · rw [get_action_confidence_eq]
  · rw [get_action_confidence_eq]
    exact argmax3_get v
  · rw [get_action_confidence_eq]
    exact argmax3_lowest v
  · rw [get_action_confidence_eq]
    by_cases h : v.max3 = v.min3
    · simp [h]
    · rw [if_neg h]
      have h10 : (0 : ℚ) ≤ (v.max3 - v.min3) / 10 := by positivity
      exact le_min (by norm_num) h10
  · rw [get_action_confidence_eq]
    by_cases h : v.max3 = v.min3
    · simp [h]
    · rw [if_neg h]
      exact min_le_left _ _
  · intro h
    rw [get_action_confidence_eq, if_pos ((max3_eq_min3_iff v).2 h)]
  · intro h
    rw [get_action_confidence_eq,
      if_neg (fun hc => h ((max3_eq_min3_iff v).1 hc))]
  · rw [chooseActionGreedy_eq]
  · rw [chooseActionGreedy_eq]
    exact argmax3_get v
  · rw [chooseActionGreedy_eq]
    exact argmax3_lowest v
  · intro h
    rw [chooseActionGreedy_eq,
      if_neg (not_not_intro ((max3_eq_min3_iff v).2 h))]
  · intro h
    rw [chooseActionGreedy_eq,
      if_pos (fun hc => h ((max3_eq_min3_iff v).1 hc))]
  · intro a st
    rfl

theorem action_confidence_spec_witness :
    (get_action_confidence ⟨0, 20, 0⟩).2 ≤ 1
    ∧ ((chooseActionGreedy ⟨0, 20, 0⟩).2 = QVals.max3 ⟨0, 20, 0⟩ - QVals.min3 ⟨0, 20, 0⟩) := by
  constructor
  · exact (action_confidence_spec ⟨0, 20, 0⟩).1.2.2.2.2.1
  · exact (action_confidence_spec ⟨0, 20, 0⟩).2.1.2.2.2.2 (by norm_num)

/-- C6 counterexample: on a fresh state (all three action-values zero,
hence all equal) `QLearningTrader.choose_action` returns confidence
`0.5`, not `0`; and on values `(20, 0, 0)` the confidence is the raw
spread `20`, outside `[0, 1]` — both contradicting the claim. -/
theorem trader_confidence_counterexample :
    (chooseActionGreedy QVals.zero).2 = 1/2
    ∧ ((1 : ℚ)/2 ≠ 0)
    ∧ (chooseActionGreedy ⟨20, 0, 0⟩).2 = 20
    ∧ ¬((20 : ℚ) ≤ 1) := by
  refine ⟨by norm_num [chooseActionGreedy, QVals.zero, QVals.max3, QVals.min3], by norm_num,
    by norm_num [chooseActionGreedy, QVals.max3, QVals.min3], by norm_num⟩

lemma signal_strength_calc_eq_score (ind : IndicatorSnapshot) :
    signal_strength_calc ind = signalScore ind := by
  simp only [signal_strength_calc, signalScore, macdCheck, vwapCheck, emaShortCheck,
    emaMediumCheck, emaLongCheck, rsiCheck, bbCheck]
  ring

lemma bbCheck_ge_neg_one (ind : IndicatorSnapshot) : -1 ≤ bbCheck ind := by
  unfold bbCheck
  split_ifs <;> omega

/-- C2: SignalScorer thresholding.  For every snapshot and every
threshold `t ≥ 1`, `generate_signal` returns strength equal to the
signed sum of the seven weighted indicator checks, direction BUY iff the
sum is at least `t`, SELL iff it is at most `-t`, HOLD otherwise; and
for every snapshot with RSI 25, MACD above its signal line with positive
histogram `0.5`, price above VWAP and EMA9 > EMA21 > SMA50, the result
at the default threshold 3 is BUY with strength at least 6. -/
theorem signal_threshold_spec (ind : IndicatorSnapshot) (t : ℤ) (ht : 1 ≤ t) :
    (generate_signal ind t).2 = signalScore ind
    ∧ ((generate_signal ind t).1 = "BUY" ↔ t ≤ signalScore ind)
    ∧ ((generate_signal ind t).1 = "SELL" ↔ signalScore ind ≤ -t)
    ∧ ((generate_signal ind t).1 = "HOLD" ↔
        -t < signalScore ind ∧ signalScore ind < t)
    ∧ (ind.rsi = 25 → ind.macd > ind.macd_signal → ind.macd_histogram = 1/2 →
        ind.price > ind.vwap → ind.ema9 > ind.ema21 → ind.ema21 > ind.sma50 →
        (generate_signal ind 3).1 = "BUY" ∧ 6 ≤ (generate_signal ind 3).2) := by
  have hscore :
      ∀ u : ℤ, generate_signal ind u =
        if signalScore ind ≥ u then ("BUY", signalScore ind)
        else if signalScore ind ≤ -u then ("SELL", signalScore ind)
        else ("HOLD", signalScore ind) := by
    intro u
    simp only [generate_signal, signal_strength_calc_eq_score]
  have hscenario : ind.rsi = 25 → ind.macd > ind.macd_signal →
      ind.macd_histogram = 1/2 → ind.price > ind.vwap → ind.ema9 > ind.ema21 →
      ind.ema21 > ind.sma50 → 8 ≤ signalScore ind := by
    intro hrsi hmacd hhist hvwap hema1 hema2
    have hema3 : ind.ema9 > ind.sma50 := lt_trans hema2 hema1
    have h1 : macdCheck ind = 1 := by
      rw [macdCheck, if_pos ⟨hmacd, by rw [hhist]; norm_num⟩]
    have h2 : vwapCheck ind = 1 := by
      rw [vwapCheck, if_pos hvwap]
    have h3 : emaShortCheck ind = 1 := by
      rw [emaShortCheck, if_pos hema1]
    have h4 : emaMediumCheck ind = 2 := by
      rw [emaMediumCheck, if_pos hema3]
    have h5 : emaLongCheck ind = 3 := by
      rw [emaLongCheck, if_pos hema2]
    have h6 : rsiCheck ind = 1 := by
      rw [rsiCheck, if_pos (by rw [hrsi]; norm_num)]
    have h7 := bbCheck_ge_neg_one ind
    rw [signalScore, h1, h2, h3, h4, h5, h6]
    omega
  refine ⟨?_, ?_, ?_, ?_, ?_⟩
  · rw [hscore t]
    split_ifs <;> rfl
  · rw [hscore t]
    split_ifs with h1 h2 <;> simp <;> omega
  · rw [hscore t]
    split_ifs with h1 h2 <;> simp <;> omega
  · rw [hscore t]
    split_ifs with h1 h2 <;> simp <;> omega
  · intro hrsi hmacd hhist hvwap hema1 hema2
    have h8 := hscenario hrsi hmacd hhist hvwap hema1 hema2
    rw [hscore 3, if_pos (by omega)]
    exact ⟨rfl, by omega⟩

theorem signal_threshold_spec_witness :
    (generate_signal
        { price := 100, rsi := 25, macd := 2, macd_signal := 1, macd_histogram := 1/2,
          vwap := 90, ema9 := 60, ema21 := 55, sma50 := 50,
          bb_upper := 120, bb_lower := 80 } 3).1 = "BUY" := by
  have h := (signal_threshold_spec
      { price := 100, rsi := 25, macd := 2, macd_signal := 1, macd_histogram := 1/2,
        vwap := 90, ema9 := 60, ema21 := 55, sma50 := 50,
        bb_upper := 120, bb_lower := 80 } 3 (by decide)).2.2.2.2
    rfl (by norm_num) rfl (by norm_num) (by norm_num) (by norm_num)
  exact h.1

lemma get_q_values_fst_epsilon (a : QLearningAgent) (k : String) :
    (a.get_q_values k).1.epsilon = a.epsilon := by
  unfold QLearningAgent.get_q_values
  rcases h : qfind a.q_table k with _ | v <;> simp [h]

lemma get_q_values_fst_epsilon_min (a : QLearningAgent) (k : String) :
    (a.get_q_values k).1.epsilon_min = a.epsilon_min := by
  unfold QLearningAgent.get_q_values
  rcases h : qfind a.q_table k with _ | v <;> simp [h]

lemma get_q_values_fst_epsilon_decay (a : QLearningAgent) (k : String) :
    (a.get_q_values k).1.epsilon_decay = a.epsilon_decay := by
  unfold QLearningAgent.get_q_values
  rcases h : qfind a.q_table k with _ | v <;> simp [h]

lemma get_q_values_fst_learning_rate (a : QLearningAgent) (k : String) :
    (a.get_q_values k).1.learning_rate = a.learning_rate := by
  unfold QLearningAgent.get_q_values
  rcases h : qfind a.q_table k with _ | v <;> simp [h]

lemma get_q_values_fst_discount_factor (a : QLearningAgent) (k : String) :
    (a.get_q_values k).1.discount_factor = a.discount_factor := by
  unfold QLearningAgent.get_q_values
  rcases h : qfind a.q_table k with _ | v <;> simp [h]

lemma get_q_values_fst_buffer (a : QLearningAgent) (k : String) :
    (a.get_q_values k).1.experience_buffer = a.experience_buffer := by
  unfold QLearningAgent.get_q_values
  rcases h : qfind a.q_table k with _ | v <;> simp [h]

lemma update_q_value_epsilon (a : QLearningAgent) (st : StateInput) (act : ℕ)
    (r : ℚ) (ns : StateInput) (d : Bool) :
    (a.update_q_value st act r ns d).epsilon = a.epsilon := by
  unfold QLearningAgent.update_q_value
  cases d <;> simp [get_q_values_fst_epsilon]

lemma update_q_value_buffer (a : QLearningAgent) (st : StateInput) (act : ℕ)
    (r : ℚ) (ns : StateInput) (d : Bool) :
    (a.update_q_value st act r ns d).experience_buffer = a.experience_buffer := by
  unfold QLearningAgent.update_q_value
  cases d <;> simp [get_q_values_fst_buffer]

lemma foldl_update_epsilon (sample : List Experience) :
    ∀ a : QLearningAgent,
      (sample.foldl
        (fun ag e => ag.update_q_value e.state e.action e.reward e.next_state e.done)
        a).epsilon = a.epsilon := by
  induction sample with
  | nil => intro a; rfl
  | cons e rest ih =>
    intro a
    rw [List.foldl_cons, ih, update_q_value_epsilon]

lemma trader_foldl_epsilon (sample : List TExperience) :
    ∀ t : QLearningTrader,
      (sample.foldl
        (fun tr e => tr.update_q_value e.state e.action e.reward e.next_state)
        t).epsilon = t.epsilon := by
  induction sample with
  | nil => intro t; rfl
  | cons e rest ih =>
    intro t
    rw [List.foldl_cons, ih]
    rfl

lemma trader_foldl_epsilon_min (sample : List TExperience) :
    ∀ t : QLearningTrader,
      (sample.foldl
        (fun tr e => tr.update_q_value e.state e.action e.reward e.next_state)
        t).epsilon_min = t.epsilon_min := by
  induction sample with
  | nil => intro t; rfl
  | cons e rest ih =>
    intro t
    rw [List.foldl_cons, ih]
    rfl

lemma trader_foldl_epsilon_decay (sample : List TExperience) :
    ∀ t : QLearningTrader,
      (sample.foldl
        (fun tr e => tr.update_q_value e.state e.action e.reward e.next_state)
        t).epsilon_decay = t.epsilon_decay := by
  induction sample with
  | nil => intro t; rfl
  | cons e rest ih =>
    intro t
    rw [List.foldl_cons, ih]
    rfl

/-- C7 (amended): replay and epsilon decay.  If the buffer holds fewer
than `batch_size` entries, both replay implementations change nothing.
`QLearningAgent.replay_experiences` never changes epsilon at all (the
decay lives in the separate `decay_epsilon` method, which does set
epsilon to `max(epsilon_min, epsilon * epsilon_decay)` and therefore
never below `epsilon_min`).  `QLearningTrader.replay_experience` decays
by multiplying epsilon by `epsilon_decay` only when epsilon still
exceeds `epsilon_min`, so its epsilon can end below `epsilon_min` but,
for a nonnegative decay factor, never below
`epsilon_min * epsilon_decay`. -/
theorem replay_epsilon_spec :
    (∀ (a : QLearningAgent) (batch_size : ℕ) (sample : List Experience),
        a.experience_buffer.length < batch_size →
        a.replay_experiences batch_size sample = a)
    ∧ (∀ (a : QLearningAgent) (batch_size : ℕ) (sample : List Experience),
        (a.replay_experiences batch_size sample).epsilon = a.epsilon)
    ∧ (∀ a : QLearningAgent,
        a.decay_epsilon.epsilon = max a.epsilon_min (a.epsilon * a.epsilon_decay)
        ∧ a.epsilon_min ≤ a.decay_epsilon.epsilon)
    ∧ (∀ (t : QLearningTrader) (batch_size : ℕ) (sample : List TExperience),
        t.experience_buffer.length < batch_size →
        t.replay_experience batch_size sample = t)
    ∧ (∀ (t : QLearningTrader) (batch_size : ℕ) (sample : List TExperience),
        0 ≤ t.epsilon_decay →
        t.epsilon_min * t.epsilon_decay ≤ t.epsilon →
        t.epsilon_min * t.epsilon_decay ≤
          (t.replay_experience batch_size sample).epsilon) := by
  refine ⟨?_, ?_, ?_, ?_, ?_⟩
  · intro a batch_size sample h
    unfold QLearningAgent.replay_experiences
    rw [if_pos h]
  · intro a batch_size sample
    unfold QLearningAgent.replay_experiences
    split_ifs with h
    · rfl
    · exact foldl_update_epsilon sample a
  · intro a
    exact ⟨rfl, le_max_left _ _⟩
  · intro t batch_size sample h
    unfold QLearningTrader.replay_experience
    rw [if_pos h]
  · intro t batch_size sample hdec hlow
    unfold QLearningTrader.replay_experience
    split_ifs with hlen
    · exact hlow
    · dsimp only
      split_ifs with hgt
      · dsimp only
        rw [trader_foldl_epsilon sample t, trader_foldl_epsilon_decay sample t]
        rw [trader_foldl_epsilon sample t, trader_foldl_epsilon_min sample t] at hgt
        exact mul_le_mul_of_nonneg_right (le_of_lt hgt) hdec
      · rw [trader_foldl_epsilon sample t]
        exact hlow

theorem replay_epsilon_spec_witness :
    ∃ a : QLearningAgent, a.decay_epsilon.epsilon =
      max a.epsilon_min (a.epsilon * a.epsilon_decay) :=
  ⟨initAgent 1 0, ((replay_epsilon_spec.2.2.1) (initAgent 1 0)).1⟩

/-- Concrete trader for the C7 counterexample: epsilon `0.01005` sits
just above `epsilon_min = 0.01`, and the buffer holds one experience so
a batch of one replays. -/
def cxTrader : QLearningTrader :=
  { learning_rate := 1/10
    discount_factor := 95/100
    epsilon := 201/20000
    epsilon_min := 1/100
    epsilon_decay := 199/200
    q_table := []
    experience_buffer := [⟨"s", 0, 1, "s"⟩]
    total_episodes := 0
    total_rewards := 0
    win_streak := 0
    loss_streak := 0 }

/-- C7 counterexample: after one replay on a full-enough buffer the
trader multiplies epsilon `0.01005` by `epsilon_decay = 0.995`, landing
strictly below `epsilon_min = 0.01`; in particular the result is not
`max(epsilon_min, epsilon * epsilon_decay)` as the claim states. -/
theorem replay_epsilon_counterexample :
    (cxTrader.replay_experience 1 [⟨"s", 0, 1, "s"⟩]).epsilon < cxTrader.epsilon_min
    ∧ (cxTrader.replay_experience 1 [⟨"s", 0, 1, "s"⟩]).epsilon ≠
        max cxTrader.epsilon_min (cxTrader.epsilon * cxTrader.epsilon_decay) := by
  have hev : (cxTrader.replay_experience 1 [⟨"s", 0, 1, "s"⟩]).epsilon =
      (201/20000 : ℚ) * (199/200) := by
    norm_num [cxTrader, QLearningTrader.replay_experience, QLearningTrader.update_q_value,
      ensureKey, qfind, qget, qset, List.foldl_cons, List.foldl_nil]
  rw [hev]
  norm_num [cxTrader]

/-- State data the bot builds for a strong BUY cycle with no open
position (BTC correlation is the source's hardcoded `0.5`). -/
def cxStateData : TStateData :=
  { signal := "BUY"
    signal_strength := 9
    rsi := 50
    macd_histogram := 1
    price := 100
    vwap := 90
    market_regime := "neutral"
    fear_greed_index := 50
    btc_correlation := 1/2
    has_position := false
    position_pnl := 0 }

/-- RL model whose learned Q-values favour BUY in the state above with a
large spread, so the greedy recommendation is BUY with confidence 10. -/
def cxBotTrader : QLearningTrader :=
  { learning_rate := 1/10
    discount_factor := 95/100
    epsilon := 1/10
    epsilon_min := 1/100
    epsilon_decay := 995/1000
    q_table := [(discretize_state cxStateData, ⟨0, 10, 0⟩)]
    experience_buffer := []
    total_episodes := 0
    total_rewards := 0
    win_streak := 0
    loss_streak := 0 }

/-- C1: the claim says that whenever the circuit breaker is not SAFE the
decision function returns HOLD.  `make_trading_decision` in
`rl_trading_bot.py` (like `_make_trading_decision` in
`src/trading_bot.py`) never reads the circuit-breaker state at all, so
for every non-SAFE breaker status the bot still issues BUY on a strong
signal with a confident RL recommendation. -/
theorem decision_ignores_circuit_breaker (cb : CircuitBreakerStatus)
    (h : cb ≠ .SAFE) :
    (make_trading_decision cxBotTrader "BUY" 9 100 50 1 90 "neutral" 50
        none 3 false 0).2.1 = "BUY" := by
  norm_num [make_trading_decision, QLearningTrader.choose_action, chooseActionGreedy,
    cxBotTrader, cxStateData, ensureKey, qfind, qget, traderActionName,
    QVals.argmax3, QVals.max3, QVals.min3]

theorem decision_ignores_circuit_breaker_witness :
    (make_trading_decision cxBotTrader "BUY" 9 100 50 1 90 "neutral" 50
        none 3 false 0).2.1 = "BUY" :=
  decision_ignores_circuit_breaker .TRIGGERED (by decide)

/-! ## Repeated Q-updates on one fixed state/action pair -/

/-- Repeated application of `update_q_value` with a constant reward on a
fixed (state, action) pair, the state also serving as next state and
`done = False`. -/
def iterUpdate (a : QLearningAgent) (state : StateInput) (action : ℕ)
    (reward : ℚ) : ℕ → QLearningAgent
  | 0 => a
  | n + 1 =>
    (iterUpdate a state action reward n).update_q_value state action reward state false

/-- The Q-value of the fixed (state, action) pair after `n` repeated
updates, starting from a fresh agent with the given learning rate and
discount factor. -/
def qIter (lr df r : ℚ) (state : StateInput) (action : ℕ) (n : ℕ) : ℚ :=
  (qget (iterUpdate (initAgent lr df) state action r n).q_table
    (get_state_key state)).get action

/-- Scalar recurrence the repeated update follows. -/
def qSeq (lr df r : ℚ) : ℕ → ℚ
  | 0 => 0
  | n + 1 =>
    let q := qSeq lr df r n
    q + lr * ((r + df * max q 0) - q)

lemma zero_get (act : ℕ) : QVals.zero.get act = 0 := by
  unfold QVals.zero QVals.get
  split_ifs <;> rfl

lemma zero_max3 : QVals.zero.max3 = 0 := by
  simp [QVals.zero, QVals.max3]

lemma zero_set_get (act : ℕ) (hact : act < 3) (q : ℚ) :
    (QVals.zero.set act q).get act = q := by
  interval_cases act <;> simp [QVals.set, QVals.get, QVals.zero]

lemma zero_set_max3 (act : ℕ) (hact : act < 3) (q : ℚ) :
    (QVals.zero.set act q).max3 = max q 0 := by
  interval_cases act <;>
    simp [QVals.set, QVals.zero, QVals.max3, max_self, max_comm, max_left_comm]

lemma zero_set_set (act : ℕ) (q q' : ℚ) :
    (QVals.zero.set act q).set act q' = QVals.zero.set act q' := by
  unfold QVals.set
  split_ifs <;> rfl

lemma update_q_value_lr (a : QLearningAgent) (st : StateInput) (act : ℕ)
    (r : ℚ) (ns : StateInput) (d : Bool) :
    (a.update_q_value st act r ns d).learning_rate = a.learning_rate := by
  unfold QLearningAgent.update_q_value
  cases d <;> simp [get_q_values_fst_learning_rate]

lemma update_q_value_df (a : QLearningAgent) (st : StateInput) (act : ℕ)
    (r : ℚ) (ns : StateInput) (d : Bool) :
    (a.update_q_value st act r ns d).discount_factor = a.discount_factor := by
  unfold QLearningAgent.update_q_value
  cases d <;> simp [get_q_values_fst_discount_factor]

lemma update_empty_table (b : QLearningAgent) (st : StateInput) (act : ℕ) (r : ℚ)
    (htab : b.q_table = []) :
    (b.update_q_value st act r st false).q_table =
      [(get_state_key st,
        QVals.zero.set act (b.learning_rate * r))] := by
  unfold QLearningAgent.update_q_value QLearningAgent.get_q_values
  simp [htab, qfind, qget, qset, zero_get, zero_max3]

lemma update_same_key (b : QLearningAgent) (st : StateInput) (act : ℕ) (r : ℚ)
    (v : QVals) (htab : b.q_table = [(get_state_key st, v)]) :
    (b.update_q_value st act r st false).q_table =
      [(get_state_key st,
        v.set act (v.get act +
          b.learning_rate * ((r + b.discount_factor * v.max3) - v.get act)))] := by
  unfold QLearningAgent.update_q_value QLearningAgent.get_q_values
  simp [htab, qfind, qget, qset]

lemma iter_update_table (lr df r : ℚ) (st : StateInput) (act : ℕ) (hact : act < 3) :
    ∀ n : ℕ,
      (iterUpdate (initAgent lr df) st act r n).q_table =
        (if n = 0 then []
         else [(get_state_key st, QVals.zero.set act (qSeq lr df r n))])
      ∧ (iterUpdate (initAgent lr df) st act r n).learning_rate = lr
      ∧ (iterUpdate (initAgent lr df) st act r n).discount_factor = df := by
  intro n
  induction n with
  | zero => exact ⟨rfl, rfl, rfl⟩
  | succ n ih =>
    obtain ⟨htab, hlr, hdf⟩ := ih
    have hstep :
        iterUpdate (initAgent lr df) st act r (n + 1) =
          (iterUpdate (initAgent lr df) st act r n).update_q_value st act r st false :=
      rfl
    refine ⟨?_, ?_, ?_⟩
    · by_cases hn : n = 0
      · subst hn
        rw [if_neg (Nat.succ_ne_zero 0), hstep,
          update_empty_table _ st act r (by simpa using htab), hlr]
        have hq1 : qSeq lr df r 1 = lr * r := by
          simp [qSeq]
        rw [hq1]
      · rw [if_neg (Nat.succ_ne_zero n), hstep,
          update_same_key _ st act r _ (by rw [htab, if_neg hn]), hlr, hdf,
          zero_set_get act hact, zero_set_max3 act hact, zero_set_set]
        have hq : qSeq lr df r n +
            lr * ((r + df * max (qSeq lr df r n) 0) - qSeq lr df r n) =
            qSeq lr df r (n + 1) := rfl
        rw [hq]
    · rw [hstep, update_q_value_lr, hlr]
    · rw [hstep, update_q_value_df, hdf]

lemma qIter_eq_qSeq (lr df r : ℚ) (st : StateInput) (act : ℕ) (hact : act < 3)
    (n : ℕ) : qIter lr df r st act n = qSeq lr df r n := by
  obtain ⟨htab, _, _⟩ := iter_update_table lr df r st act hact n
  unfold qIter
  rw [htab]
  by_cases hn : n = 0
  · subst hn
    simp [qget, qfind, zero_get, qSeq]
  · rw [if_neg hn]
    simp only [qget, qfind, if_pos rfl, Option.getD_some]
    exact zero_set_get act hact _

section QSeqAnalysis

variable {lr df r : ℚ}

lemma qSeq_succ_eq (lr df r : ℚ) (n : ℕ) :
    qSeq lr df r (n + 1) =
      qSeq lr df r n + lr * ((r + df * max (qSeq lr df r n) 0) - qSeq lr df r n) :=
  rfl

lemma qSeq_nonneg_le (hlr0 : 0 < lr) (hlr1 : lr ≤ 1) (hdf0 : 0 ≤ df)
    (hdf1 : df < 1) (hr : 0 < r) :
    ∀ n, 0 ≤ qSeq lr df r n ∧ qSeq lr df r n ≤ r / (1 - df) := by
  have h1df : (0 : ℚ) < 1 - df := by linarith
  have hLr : (1 - df) * (r / (1 - df)) = r := by
    field_simp
  intro n
  induction n with
  | zero =>
    exact ⟨le_refl 0, div_nonneg (le_of_lt hr) (le_of_lt h1df)⟩
  | succ n ih =>
    obtain ⟨h0, hL⟩ := ih
    rw [qSeq_succ_eq, max_eq_left h0]
    have hkey : 0 ≤ r - (1 - df) * qSeq lr df r n := by
      have := mul_le_mul_of_nonneg_left hL (le_of_lt h1df)
      rw [hLr] at this
      linarith
    have hform : (r + df * qSeq lr df r n) - qSeq lr df r n =
        r - (1 - df) * qSeq lr df r n := by ring
    rw [hform]
    constructor
    · have := mul_nonneg (le_of_lt hlr0) hkey
      linarith
    · have hc : lr * (1 - df) ≤ 1 :=
        mul_le_one hlr1 (le_of_lt h1df) (by linarith)
      have hprod : 0 ≤ (r / (1 - df) - qSeq lr df r n) * (1 - lr * (1 - df)) :=
        mul_nonneg (by linarith) (by linarith)
      nlinarith [hprod, hLr]

lemma qSeq_mono (hlr0 : 0 < lr) (hlr1 : lr ≤ 1) (hdf0 : 0 ≤ df)
    (hdf1 : df < 1) (hr : 0 < r) (n : ℕ) :
    qSeq lr df r n ≤ qSeq lr df r (n + 1) := by
  have h1df : (0 : ℚ) < 1 - df := by linarith
  have hLr : (1 - df) * (r / (1 - df)) = r := by field_simp
  obtain ⟨h0, hL⟩ := qSeq_nonneg_le hlr0 hlr1 hdf0 hdf1 hr n
  rw [qSeq_succ_eq, max_eq_left h0]
  have hkey : 0 ≤ r - (1 - df) * qSeq lr df r n := by
    have := mul_le_mul_of_nonneg_left hL (le_of_lt h1df)
    rw [hLr] at this
    linarith
  nlinarith [mul_nonneg (le_of_lt hlr0) hkey]

lemma qSeq_error_closed (hlr0 : 0 < lr) (hlr1 : lr ≤ 1) (hdf0 : 0 ≤ df)
    (hdf1 : df < 1) (hr : 0 < r) :
    ∀ n, r / (1 - df) - qSeq lr df r n =
      (1 - lr * (1 - df)) ^ n * (r / (1 - df)) := by
  have h1df : (0 : ℚ) < 1 - df := by linarith
  have hLr : (1 - df) * (r / (1 - df)) = r := by field_simp
  intro n
  induction n with
  | zero => simp [qSeq]
  | succ n ih =>
    obtain ⟨h0, _⟩ := qSeq_nonneg_le hlr0 hlr1 hdf0 hdf1 hr n
    rw [qSeq_succ_eq, max_eq_left h0]
    have hgoal : r / (1 - df) -
        (qSeq lr df r n + lr * ((r + df * qSeq lr df r n) - qSeq lr df r n)) =
        (1 - lr * (1 - df)) * (r / (1 - df) - qSeq lr df r n) := by
      linear_combination lr * hLr
    rw [hgoal, ih, pow_succ]
    ring

end QSeqAnalysis

/-- C8: Q-update convergence sanity.  Starting from a fresh agent (the
Q-table entry is zero-initialized), with learning rate in `(0, 1]` and
discount factor in `[0, 1)`, repeatedly applying `update_q_value` with a
constant positive reward on one fixed (state, action) pair — the state
also serving as next state, not done — yields a monotonically increasing
(non-decreasing) sequence of Q-values for that action, bounded by
`r / (1 - γ)`, that comes within any given positive error bound of
`r / (1 - γ)` after sufficiently many iterations. -/
theorem q_update_convergence (lr df r : ℚ) (st : StateInput) (act : ℕ)
    (hlr0 : 0 < lr) (hlr1 : lr ≤ 1) (hdf0 : 0 ≤ df) (hdf1 : df < 1)
    (hr : 0 < r) (hact : act < 3) :
    (∀ n, qIter lr df r st act n ≤ qIter lr df r st act (n + 1))
    ∧ (∀ n, qIter lr df r st act n ≤ r / (1 - df))
    ∧ (∀ ε : ℚ, 0 < ε →
        ∃ N, ∀ n, N ≤ n → r / (1 - df) - qIter lr df r st act n < ε) := by
  have h1df : (0 : ℚ) < 1 - df := by linarith
  have hL : 0 < r / (1 - df) := div_pos hr h1df
  have hq : ∀ n, qIter lr df r st act n = qSeq lr df r n :=
    qIter_eq_qSeq lr df r st act hact
  refine ⟨?_, ?_, ?_⟩
  · intro n
    rw [hq, hq]
    exact qSeq_mono hlr0 hlr1 hdf0 hdf1 hr n
  · intro n
    rw [hq]
    exact (qSeq_nonneg_le hlr0 hlr1 hdf0 hdf1 hr n).2
  · intro ε hε
    have hc0 : 0 ≤ 1 - lr * (1 - df) := by
      have hc : lr * (1 - df) ≤ 1 :=
        mul_le_one hlr1 (le_of_lt h1df) (by linarith)
      linarith
    have hc1 : 1 - lr * (1 - df) < 1 := by
      have := mul_pos hlr0 h1df
      linarith
    obtain ⟨N, hN⟩ := exists_pow_lt_of_lt_one (div_pos hε hL) hc1
    refine ⟨N, fun n hn => ?_⟩
    rw [hq]
    have hclosed := qSeq_error_closed hlr0 hlr1 hdf0 hdf1 hr n
    have hpow : (1 - lr * (1 - df)) ^ n ≤ (1 - lr * (1 - df)) ^ N :=
      pow_le_pow_of_le_one hc0 (le_of_lt hc1) hn
    calc r / (1 - df) - qSeq lr df r n
        = (1 - lr * (1 - df)) ^ n * (r / (1 - df)) := hclosed
      _ ≤ (1 - lr * (1 - df)) ^ N * (r / (1 - df)) :=
          mul_le_mul_of_nonneg_right hpow (le_of_lt hL)
      _ < ε := (lt_div_iff hL).1 hN

theorem q_update_convergence_witness :
    qIter 1 0 1 ⟨0, 50, 0, 50, 0, "neutral", "neutral"⟩ 0 5 ≤
      qIter 1 0 1 ⟨0, 50, 0, 50, 0, "neutral", "neutral"⟩ 0 6 :=
  (q_update_convergence 1 0 1 ⟨0, 50, 0, 50, 0, "neutral", "neutral"⟩ 0
    (by decide) (by decide) (by decide) (by decide) (by decide) (by decide)).1 5

end BrownbagAI
